import Mathlib

/-!
Verification of the leasehold chain module against its specification.

The definitions below are a shallow embedding of the module's source:
`peers.js` (broadhash consensus), the transport RPC surface
(`blocksCommon`, `postBlock`, `postTransaction`, `postTransactions`),
the chain orchestrator's transaction sanitization and bootstrap
sequence.  JS strings that the code splits and filters are modelled as
`List Char`; JS `undefined`/`null` fields as `Option`; machine numbers
as `ℚ`/`ℕ` (the quantities involved are small enough that JS doubles
are exact where it matters, see `jsMathRound`); fallible operations as
`Except`.  External collaborators (storage rows, cryptographic
primitives, the transaction pool) are passed in as explicit data or
function parameters.
-/

namespace Leasehold

/-- JS `Math.round`: rounds half toward positive infinity.  For the
consensus computation the operands are bounded by `10^6`, where double
arithmetic is exact (ties land on representable halves), so the exact
rational model is faithful. -/
def jsMathRound (x : ℚ) : ℤ := ⌊x + 1 / 2⌋

/-- The `MAX_PEERS` constant from peers.js. -/
def MAX_PEERS : ℕ := 100

/-- The module entry a peer advertises (`peer.modules[alias]`): only its
`broadhash` field is read; `none` models an absent (JS `undefined`) field. -/
structure PeerModuleInfo where
  broadhash : Option String
  deriving DecidableEq

/-- A connected peer as seen by `calculateConsensus`; `modules` may be
absent (`peer.modules` falsy). -/
structure Peer where
  modules : Option (List (String × PeerModuleInfo))
  deriving DecidableEq

/-- The chain's own entry in the application state (`appState.modules[alias]`). -/
structure ModuleInfo where
  broadhash : Option String
  deriving DecidableEq

/-- Application state returned by `app:getApplicationState`. -/
structure AppState where
  modules : List (String × ModuleInfo)
  deriving DecidableEq

/-- Constructor arguments of the `Peers` class. -/
structure PeersConfig where
  moduleAlias : String
  forgingForce : Bool
  minBroadhashConsensus : ℚ

/-- Association-list lookup, modelling JS property access `obj[key]`. -/
def lookupModule (l : List (String × ModuleInfo)) (key : String) : Option ModuleInfo :=
  (l.find? (fun p => p.1 == key)).map (·.2)

/-- Truthiness of `peer.modules && peer.modules[alias]`: the peer has a
`modules` object containing an entry for this alias. -/
def hasModule (moduleAlias : String) (p : Peer) : Bool :=
  match p.modules with
  | none => false
  | some l => (l.find? (fun q => q.1 == moduleAlias)).isSome

/-- Equality test `peer.modules[alias].broadhash === broadhash`; `Option` equality has
exactly the `===` semantics for possibly-`undefined` string fields. -/
def peerMatches (moduleAlias : String) (broadhash : Option String) (p : Peer) : Bool :=
  match p.modules with
  | none => false
  | some l =>
    match l.find? (fun q => q.1 == moduleAlias) with
    | none => false
    | some q => q.2.broadhash == broadhash

/-- The `activePeers` local of `calculateConsensus`. -/
def activePeers (moduleAlias : String) (peers : List Peer) : List Peer :=
  peers.filter (fun p => hasModule moduleAlias p)

/-- The `matchingPeers` local of `calculateConsensus`. -/
def matchingPeers (moduleAlias : String) (broadhash : Option String)
    (peers : List Peer) : List Peer :=
  (activePeers moduleAlias peers).filter (fun p => peerMatches moduleAlias broadhash p)

/-- Source `Peers.calculateConsensus`: the connected-peer list and application
state are the data the two `channel.invoke` calls would return.  The
method ignores its `broadhash` argument in the source, so none is taken. -/
def calculateConsensus (cfg : PeersConfig) (st : AppState) (peers : List Peer) : ℚ :=
  match lookupModule st.modules cfg.moduleAlias with
  | none => 0
  | some moduleInfo =>
    let active := activePeers cfg.moduleAlias peers
    let activeCount := min active.length MAX_PEERS
    if activeCount = 0 then 0
    else
      let matching := matchingPeers cfg.moduleAlias moduleInfo.broadhash peers
      let matchedCount := min matching.length MAX_PEERS
      (jsMathRound ((matchedCount : ℚ) * 10000 / (activeCount : ℚ)) : ℚ) / 100

/-- Source `Peers.getLastConsensus(broadhash)`: forwards to `calculateConsensus`,
passing along the (ignored) `broadhash` argument. -/
def getLastConsensus (cfg : PeersConfig) (st : AppState) (peers : List Peer)
    (broadhash : Option String) : ℚ :=
  calculateConsensus cfg st peers

/-- Source `Peers.isPoorConsensus(broadhash)`. -/
def isPoorConsensus (cfg : PeersConfig) (st : AppState) (peers : List Peer)
    (broadhash : Option String) : Bool :=
  if cfg.forgingForce then false
  else decide (calculateConsensus cfg st peers < cfg.minBroadhashConsensus)

/-- Rounding a value to two decimal places, half up: the spec's
"rounded to two decimals". -/
def roundTo2 (x : ℚ) : ℚ := (round (x * 100) : ℚ) / 100

theorem jsMathRound_eq_round (x : ℚ) : jsMathRound x = round x := by
  rw [jsMathRound, round_eq]

/-- C2: with the chain's module present in the application state,
`calculateConsensus` returns matched/active × 100 rounded to two
decimals, where `matched` counts active peers whose advertised
broadhash equals the chain's and both counts are clamped to
`MAX_PEERS`; matched = active yields 100 and no matching peer yields 0. -/
theorem calculateConsensus_spec (cfg : PeersConfig) (st : AppState) (peers : List Peer)
    (mi : ModuleInfo) (h : lookupModule st.modules cfg.moduleAlias = some mi) :
    (activePeers cfg.moduleAlias peers ≠ [] →
      calculateConsensus cfg st peers
        = roundTo2 (((min (matchingPeers cfg.moduleAlias mi.broadhash peers).length MAX_PEERS : ℕ) : ℚ)
            / ((min (activePeers cfg.moduleAlias peers).length MAX_PEERS : ℕ) : ℚ) * 100))
    ∧ ((matchingPeers cfg.moduleAlias mi.broadhash peers).length
          = (activePeers cfg.moduleAlias peers).length →
        activePeers cfg.moduleAlias peers ≠ [] →
        calculateConsensus cfg st peers = 100)
    ∧ (matchingPeers cfg.moduleAlias mi.broadhash peers = [] →
        calculateConsensus cfg st peers = 0) := by
  have hcalc : calculateConsensus cfg st peers
      = (let active := activePeers cfg.moduleAlias peers
         let activeCount := min active.length MAX_PEERS
         if activeCount = 0 then 0
         else
           let matching := matchingPeers cfg.moduleAlias mi.broadhash peers
           let matchedCount := min matching.length MAX_PEERS
           ((jsMathRound ((matchedCount : ℚ) * 10000 / (activeCount : ℚ)) : ℚ) / 100 : ℚ)) := by
    rw [calculateConsensus, h]
  have hmain : activePeers cfg.moduleAlias peers ≠ [] →
      calculateConsensus cfg st peers
        = roundTo2 (((min (matchingPeers cfg.moduleAlias mi.broadhash peers).length MAX_PEERS : ℕ) : ℚ)
            / ((min (activePeers cfg.moduleAlias peers).length MAX_PEERS : ℕ) : ℚ) * 100) := by
    intro hne
    have hlen : 0 < (activePeers cfg.moduleAlias peers).length :=
      List.length_pos.mpr hne
    have hmin : ¬ (min (activePeers cfg.moduleAlias peers).length MAX_PEERS = 0) := by
      have : 0 < MAX_PEERS := by norm_num [MAX_PEERS]
      omega
    rw [hcalc]
    simp only [hmin, if_false]
    rw [roundTo2, jsMathRound_eq_round]
    congr 2
    ring_nf
  refine ⟨hmain, ?_, ?_⟩
  · intro heq hne
    rw [hmain hne, heq]
    have hlen : 0 < (activePeers cfg.moduleAlias peers).length :=
      List.length_pos.mpr hne
    have hmin : ((min (activePeers cfg.moduleAlias peers).length MAX_PEERS : ℕ) : ℚ) ≠ 0 := by
      have h1 : 0 < min (activePeers cfg.moduleAlias peers).length MAX_PEERS := by
        have : 0 < MAX_PEERS := by norm_num [MAX_PEERS]
        omega
      exact_mod_cast h1.ne'
    rw [div_self hmin, one_mul, roundTo2]
    rw [show ((100 : ℚ) * 100) = ((10000 : ℤ) : ℚ) by norm_num, round_intCast]
    norm_num
  · intro hM
    by_cases hA : activePeers cfg.moduleAlias peers = []
    · have hmin0 : min (activePeers cfg.moduleAlias peers).length MAX_PEERS = 0 := by
        rw [hA]; simp
      rw [hcalc]
      simp [hmin0]
    · rw [hmain hA, hM]
      simp only [List.length_nil]
      rw [roundTo2]
      norm_num

/-- C2 witness: one connected peer advertising the alias with the
chain's broadhash gives consensus 100. -/
theorem calculateConsensus_spec_witness :
    calculateConsensus ⟨"lh", false, 51⟩ ⟨[("lh", ⟨some "bh"⟩)]⟩
      [⟨some [("lh", ⟨some "bh"⟩)]⟩] = 100 :=
  (calculateConsensus_spec ⟨"lh", false, 51⟩ ⟨[("lh", ⟨some "bh"⟩)]⟩
      [⟨some [("lh", ⟨some "bh"⟩)]⟩] ⟨some "bh"⟩ rfl).2.1 rfl (by decide)

/-- C7: `isPoorConsensus` is false under `forgingForce`, and otherwise
true exactly when the computed consensus is strictly below the
configured minimum broadhash consensus. -/
theorem isPoorConsensus_spec (cfg : PeersConfig) (st : AppState) (peers : List Peer)
    (broadhash : Option String) :
    (cfg.forgingForce = true → isPoorConsensus cfg st peers broadhash = false)
    ∧ (cfg.forgingForce = false →
        (isPoorConsensus cfg st peers broadhash = true
          ↔ calculateConsensus cfg st peers < cfg.minBroadhashConsensus)) := by
  constructor
  · intro hf
    rw [isPoorConsensus, hf]
    simp
  · intro hf
    rw [isPoorConsensus, hf]
    simp

/-- C7 witness: with `forgingForce` the answer is false; without it, an
empty peer list (consensus 0) below a positive minimum is poor. -/
theorem isPoorConsensus_spec_witness :
    isPoorConsensus ⟨"lh", true, 51⟩ ⟨[]⟩ [] none = false
    ∧ isPoorConsensus ⟨"lh", false, 51⟩ ⟨[]⟩ [] none = true := by
  constructor
  · exact (isPoorConsensus_spec ⟨"lh", true, 51⟩ ⟨[]⟩ [] none).1 rfl
  · refine ((isPoorConsensus_spec ⟨"lh", false, 51⟩ ⟨[]⟩ [] none).2 rfl).mpr ?_
    have h0 : calculateConsensus ⟨"lh", false, 51⟩ ⟨[]⟩ [] = 0 := rfl
    rw [h0]
    norm_num

/-- C8: `getLastConsensus` returns exactly what `calculateConsensus`
returns in the same state, for every broadhash argument: no cached
value exists. -/
theorem getLastConsensus_eq_calculateConsensus (cfg : PeersConfig) (st : AppState)
    (peers : List Peer) (broadhash : Option String) :
    getLastConsensus cfg st peers broadhash = calculateConsensus cfg st peers := rfl

/-- C9: `calculateConsensus` is total: a missing module entry in the
application state yields 0, and an empty active-peer set yields 0; the
division is guarded by the `activeCount = 0` early return. -/
theorem calculateConsensus_total (cfg : PeersConfig) (st : AppState) (peers : List Peer) :
    (lookupModule st.modules cfg.moduleAlias = none → calculateConsensus cfg st peers = 0)
    ∧ (activePeers cfg.moduleAlias peers = [] → calculateConsensus cfg st peers = 0) := by
  constructor
  · intro h
    rw [calculateConsensus, h]
  · intro hA
    rw [calculateConsensus]
    cases hmi : lookupModule st.modules cfg.moduleAlias with
    | none => rfl
    | some mi =>
      have hmin0 : min (activePeers cfg.moduleAlias peers).length MAX_PEERS = 0 := by
        rw [hA]; simp
      simp [hmin0]

/-- C9 witness: absent module entry and empty peer list both give 0. -/
theorem calculateConsensus_total_witness :
    calculateConsensus ⟨"lh", false, 51⟩ ⟨[]⟩ [⟨some [("lh", ⟨some "bh"⟩)]⟩] = 0
    ∧ calculateConsensus ⟨"lh", false, 51⟩ ⟨[("lh", ⟨some "bh"⟩)]⟩ [] = 0 := by
  constructor
  · exact (calculateConsensus_total ⟨"lh", false, 51⟩ ⟨[]⟩
      [⟨some [("lh", ⟨some "bh"⟩)]⟩]).1 rfl
  · exact (calculateConsensus_total ⟨"lh", false, 51⟩ ⟨[("lh", ⟨some "bh"⟩)]⟩ []).2 rfl

/-! ## Transport.blocksCommon

JS strings manipulated character-wise are modelled as `List Char`. -/

/-- JS `s.split(',')`: always returns at least one (possibly empty) part. -/
def splitOnComma (s : List Char) : List (List Char) :=
  match s with
  | [] => [[]]
  | c :: rest =>
    match splitOnComma rest with
    | [] => [[]]
    | t :: ts => if c = Char.ofNat 44 then [] :: t :: ts else (c :: t) :: ts

/-- JS `s.replace(/['"]+/g, '')`: drops every single- and double-quote
character (code points 39 and 34). -/
def stripQuotes (s : List Char) : List Char :=
  s.filter (fun c => !(c = Char.ofNat 39 || c = Char.ofNat 34))

/-- JS `/^[0-9]+$/.test(id)`: nonempty and all decimal digits. -/
def isNumericId (id : List Char) : Bool :=
  !id.isEmpty && id.all (fun c => c.isDigit)

/-- The `escapedIds` local of `blocksCommon`: strip quotes, split on
commas, keep only numeric candidates. -/
def escapedIds (ids : List Char) : List (List Char) :=
  (splitOnComma (stripQuotes ids)).filter isNumericId

/-- A stored block row, with the columns `blocksCommon` reads. -/
structure BlockRow where
  id : List Char
  height : Nat
  previousBlockId : Option (List Char)
  timestamp : Nat
  deriving DecidableEq

/-- The `common` result shape `{id, height, previousBlock, timestamp}`. -/
structure CommonBlock where
  id : List Char
  height : Nat
  previousBlock : Option (List Char)
  timestamp : Nat
  deriving DecidableEq

/-- The `parsedRow` built from a stored row. -/
def toCommonBlock (b : BlockRow) : CommonBlock :=
  ⟨b.id, b.height, b.previousBlockId, b.timestamp⟩

/-- Modelled from the spec: the `WSBlocksCommonRequest` schema check
(the schema/definitions file is not among the sources); the spec only
requires the `ids` property to be present as a csv string, modelled as
requiring a nonempty string. -/
def wsBlocksCommonRequestValid (ids : List Char) : Bool :=
  !ids.isEmpty

/-- Source `Transport.blocksCommon`.  The storage is the list of stored
block rows; `Block.get({id})` returns the rows with that id, in store
order. -/
def blocksCommon (store : List BlockRow) (ids : List Char) :
    Except String (Option CommonBlock) :=
  if !ids.isEmpty && decide (1000 < (splitOnComma ids).length) then
    .error "ids property contains more than 1000 values"
  else if !wsBlocksCommonRequestValid ids then
    .error "schema validation failed"
  else
    match store, escapedIds ids with
    | _, [] => .error "Invalid block id sequence"
    | store, firstId :: _ =>
      .ok ((store.find? (fun b => b.id == firstId)).map toCommonBlock)

/-- The C1 claim's words, as a second definition to compare against the
source: the first stored row whose id matches ANY numeric candidate. -/
def blocksCommonClaimResult (store : List BlockRow) (ids : List Char) :
    Option CommonBlock :=
  (store.find? (fun b => (escapedIds ids).contains b.id)).map toCommonBlock

/-- C1 counterexample: with the store holding only block "2" and the
query ids "1,2", the code looks up only the first numeric candidate "1"
and returns `common = null`, while the claim requires the row for "2". -/
theorem blocksCommon_any_candidate_cex :
    blocksCommon [⟨['2'], 5, none, 7⟩] ['1', Char.ofNat 44, '2'] = .ok none
    ∧ blocksCommonClaimResult [⟨['2'], 5, none, 7⟩] ['1', Char.ofNat 44, '2']
        = some ⟨['2'], 5, none, 7⟩
    ∧ blocksCommon [⟨['2'], 5, none, 7⟩] ['1', Char.ofNat 44, '2']
        ≠ .ok (blocksCommonClaimResult [⟨['2'], 5, none, 7⟩] ['1', Char.ofNat 44, '2']) := by
  refine ⟨rfl, rfl, fun hc => ?_⟩
  have h1 : blocksCommon [⟨['2'], 5, none, 7⟩] ['1', Char.ofNat 44, '2']
      = .ok (none : Option CommonBlock) := rfl
  have h2 : blocksCommonClaimResult [⟨['2'], 5, none, 7⟩] ['1', Char.ofNat 44, '2']
      = some ⟨['2'], 5, none, 7⟩ := rfl
  rw [h1, h2] at hc
  exact Option.noConfusion (Except.ok.inj hc)

/-- C1 amended: for a query of at most 1000 comma-separated values with
at least one numeric candidate after quote-stripping, `blocksCommon`
returns success with the first stored row whose id equals the FIRST
numeric candidate, or `common = null` when that candidate matches no row. -/
theorem blocksCommon_first_candidate (store : List BlockRow) (ids : List Char)
    (firstId : List Char) (rest : List (List Char))
    (hlen : (splitOnComma ids).length ≤ 1000)
    (he : escapedIds ids = firstId :: rest) :
    blocksCommon store ids
      = .ok ((store.find? (fun b => b.id == firstId)).map toCommonBlock) := by
  have hne : ids.isEmpty = false := by
    cases ids with
    | nil =>
      have h0 : escapedIds ([] : List Char) = [] := rfl
      rw [h0] at he
      exact List.noConfusion he
    | cons c cs => rfl
  have hguard : (!ids.isEmpty && decide (1000 < (splitOnComma ids).length)) = false := by
    have hh : ¬ (1000 < (splitOnComma ids).length) := by omega
    simp [hh]
  rw [blocksCommon.eq_def, hguard, he]
  simp [wsBlocksCommonRequestValid, hne]

/-- C1 amended witness: single numeric id "2" present in the store. -/
theorem blocksCommon_first_candidate_witness :
    blocksCommon [⟨['2'], 5, none, 7⟩] ['2'] = .ok (some ⟨['2'], 5, none, 7⟩) := by
  have h := blocksCommon_first_candidate [⟨['2'], 5, none, 7⟩] ['2'] ['2'] []
    (by decide) (by decide)
  rw [h]
  rfl

/-- C4: a query whose ids split into more than 1000 comma-separated
values is rejected with the exact error message, independently of the
store (so the store is never consulted). -/
theorem blocksCommon_limit (store : List BlockRow) (ids : List Char)
    (h : 1000 < (splitOnComma ids).length) :
    blocksCommon store ids = .error "ids property contains more than 1000 values"
    ∧ ∀ store2 : List BlockRow, blocksCommon store ids = blocksCommon store2 ids := by
  have hne : ids.isEmpty = false := by
    cases ids with
    | nil => simp [splitOnComma] at h
    | cons c cs => rfl
  have hguard : (!ids.isEmpty && decide (1000 < (splitOnComma ids).length)) = true := by
    simp [hne, h]
  have herr : ∀ st : List BlockRow,
      blocksCommon st ids = .error "ids property contains more than 1000 values" := by
    intro st
    rw [blocksCommon.eq_def, hguard]
    simp
  exact ⟨herr store, fun store2 => by rw [herr store, herr store2]⟩

theorem splitOnComma_ne_nil (s : List Char) : splitOnComma s ≠ [] := by
  induction s with
  | nil => simp [splitOnComma]
  | cons c rest ih =>
    rw [splitOnComma.eq_def]
    cases hs : splitOnComma rest with
    | nil => simp [hs]
    | cons t ts =>
      by_cases hc : c = Char.ofNat 44 <;> simp [hs, hc]

theorem splitOnComma_comma_cons (rest : List Char) :
    splitOnComma (Char.ofNat 44 :: rest) = [] :: splitOnComma rest := by
  rw [splitOnComma.eq_def]
  cases hs : splitOnComma rest with
  | nil => exact absurd hs (splitOnComma_ne_nil rest)
  | cons t ts => simp [hs]

/-- Splitting `n` commas yields `n + 1` empty parts. -/
theorem splitOnComma_replicate_comma (n : ℕ) :
    (splitOnComma (List.replicate n (Char.ofNat 44))).length = n + 1 := by
  induction n with
  | zero => rfl
  | succ k ih =>
    rw [List.replicate_succ, splitOnComma_comma_cons, List.length_cons, ih]

/-- C4 witness: 1001 commas split into 1002 values and are rejected. -/
theorem blocksCommon_limit_witness :
    blocksCommon [] (List.replicate 1001 (Char.ofNat 44))
      = .error "ids property contains more than 1000 values" :=
  (blocksCommon_limit [] (List.replicate 1001 (Char.ofNat 44))
    (by rw [splitOnComma_replicate_comma]; omega)).1

/-! ## Transport.postTransaction, postBlock, postTransactions -/

/-- One element of a posted transaction's `signatures` array: a bare
signature string, an object carrying an optional `signature` field, or a
null/undefined element. -/
inductive SigPacket where
  | str (s : String)
  | obj (signature : Option String)
  | nullPacket
  deriving DecidableEq

/-- JS `typeof p === 'string' ? p : p && p.signature`. -/
def sigPacketValue : SigPacket → Option String
  | .str s => some s
  | .obj signature => signature
  | .nullPacket => none

/-- A posted transaction JSON: an opaque core plus the optional
`signatures` array that `postTransaction` rewrites. -/
structure TxJson (P : Type) where
  core : P
  signatures : Option (List SigPacket)

/-- The transaction after `postTransaction`'s signature flattening. -/
structure SanitizedTx (P : Type) where
  core : P
  signatures : Option (List (Option String))

/-- The signature-flattening step at the top of `postTransaction`. -/
def sanitizeSignatures {P : Type} (t : TxJson P) : SanitizedTx P :=
  { core := t.core, signatures := t.signatures.map (fun l => l.map sigPacketValue) }

/-- The `{success, transactionId}` result of `postTransaction`. -/
structure PostTxResult where
  success : Bool
  transactionId : String
  deriving DecidableEq

/-- The named error object thrown by `postTransaction`. -/
structure NamedError where
  name : String
  type : String
  message : String
  deriving DecidableEq

/-- Modelled from the spec: `convertErrorsToString` (utils/error_handlers
is not among the sources) produces the stringified underlying-error
list; modelled as a comma-separated join of the error messages. -/
def convertErrorsToString (errors : List String) : String :=
  String.intercalate ", " errors

/-- Source `Transport.postTransaction`: `receive` stands for
`_receiveTransaction` (normalization, allowed/validate checks and pool
ingest live outside these sources), returning the ingested transaction
id or the underlying error list. -/
def postTransaction {P : Type} (receive : SanitizedTx P → Except (List String) String)
    (transaction : TxJson P) : Except NamedError PostTxResult :=
  match receive (sanitizeSignatures transaction) with
  | .ok id => .ok { success := true, transactionId := id }
  | .error errors =>
    .error { name := "InvalidTransactionError", type := "InvalidActionError",
             message := convertErrorsToString errors }

/-- C5: `postTransaction` either returns `{success: true, transactionId}`
with the ingested id, or throws a named `InvalidTransactionError`
carrying the stringified underlying-error list; every non-throwing
return has `success = true`. -/
theorem postTransaction_shape {P : Type}
    (receive : SanitizedTx P → Except (List String) String) (transaction : TxJson P) :
    ((∃ id, receive (sanitizeSignatures transaction) = .ok id
        ∧ postTransaction receive transaction = .ok { success := true, transactionId := id })
      ∨ (∃ errors, receive (sanitizeSignatures transaction) = .error errors
          ∧ postTransaction receive transaction
              = .error { name := "InvalidTransactionError", type := "InvalidActionError",
                         message := convertErrorsToString errors }))
    ∧ (∀ r, postTransaction receive transaction = .ok r → r.success = true) := by
  constructor
  · cases hr : receive (sanitizeSignatures transaction) with
    | ok id => exact Or.inl ⟨id, rfl, by rw [postTransaction.eq_def, hr]⟩
    | error errors => exact Or.inr ⟨errors, rfl, by rw [postTransaction.eq_def, hr]⟩
  · intro r hok
    rw [postTransaction.eq_def] at hok
    cases hr : receive (sanitizeSignatures transaction) with
    | ok id =>
      rw [hr] at hok
      have := Except.ok.inj hok
      rw [← this]
    | error errors =>
      rw [hr] at hok
      exact Except.noConfusion hok

/-- C5 witness: a trivially accepting ingest yields the success shape. -/
theorem postTransaction_shape_witness :
    postTransaction (fun _ : SanitizedTx Unit => Except.ok "tid") ⟨(), none⟩
      = .ok { success := true, transactionId := "tid" } := by
  rcases (postTransaction_shape (fun _ : SanitizedTx Unit => Except.ok "tid") ⟨(), none⟩).1 with
    ⟨id, hok, hres⟩ | ⟨errors, herr, _⟩
  · have hid : "tid" = id := Except.ok.inj hok
    rw [hres, ← hid]
  · exact Except.noConfusion herr

/-- Outcome of an inbound `postBlock` call. -/
inductive PostBlockOutcome (B : Type) where
  | disabledLog
  | schemaError
  | syncingSkip
  | received (b : B)
  deriving DecidableEq

/-- Source `Transport.postBlock`: `validate` is the `WSBlocksBroadcast` schema
check, `normalize` the addBlockProperties / fromBlock / objectNormalize
pipeline, `recv` is `blocksModule.receiveBlockFromNetwork` acting on the
chain state. -/
def postBlock {Q B C : Type} (broadcastsActive : Bool) (syncing : Bool)
    (validate : Q → Bool) (normalize : Q → B) (recv : C → B → C)
    (chain : C) (query : Q) : C × PostBlockOutcome B :=
  if !broadcastsActive then (chain, .disabledLog)
  else if !validate query then (chain, .schemaError)
  else
    let block := normalize query
    if syncing then (chain, .syncingSkip)
    else (recv chain block, .received block)

/-- Outcome of an inbound `postTransactions` call. -/
inductive PostTxsOutcome where
  | disabledLog
  | schemaError
  | processed
  deriving DecidableEq

/-- Source `Transport._receiveTransactions`: each transaction is marked
`bundled = true` and ingested in order; per-transaction errors are
logged and the loop continues, so only the pool-state effect shows. -/
def receiveTransactions {T S : Type} (setBundled : T → T)
    (ingest : S → T → S) (pool : S) (transactions : List T) : S :=
  transactions.foldl (fun s t => ingest s (setBundled t)) pool

/-- Source `Transport.postTransactions`: `validate` is the
`WSTransactionsRequest` schema check, `txsOf` reads `query.transactions`. -/
def postTransactions {T S Q : Type} (broadcastsActive : Bool)
    (validate : Q → Bool) (txsOf : Q → List T) (setBundled : T → T)
    (ingest : S → T → S) (pool : S) (query : Q) : S × PostTxsOutcome :=
  if !broadcastsActive then (pool, .disabledLog)
  else if !validate query then (pool, .schemaError)
  else (receiveTransactions setBundled ingest pool (txsOf query), .processed)

/-- C6: with `broadcasts.active = false`, `postBlock` and
`postTransactions` return with only a debug log, for every validator,
normalizer, receive function, ingest function and payload: the chain
state and the pool state are returned unchanged, so nothing is
validated, received or ingested. -/
theorem broadcasts_inactive_noop {Q B C T S Q2 : Type}
    (broadcastsActive : Bool) (syncing : Bool)
    (validate : Q → Bool) (normalize : Q → B) (recv : C → B → C)
    (chain : C) (query : Q)
    (validate2 : Q2 → Bool) (txsOf : Q2 → List T) (setBundled : T → T)
    (ingest : S → T → S) (pool : S) (query2 : Q2)
    (h : broadcastsActive = false) :
    postBlock broadcastsActive syncing validate normalize recv chain query
      = (chain, .disabledLog)
    ∧ postTransactions broadcastsActive validate2 txsOf setBundled ingest pool query2
      = (pool, .disabledLog) := by
  subst h
  exact ⟨rfl, rfl⟩

/-- C6 witness: a concrete disabled node leaves a numeric chain state
and pool state untouched. -/
theorem broadcasts_inactive_noop_witness :
    postBlock false false (fun _ : Unit => true) (fun _ => ()) (fun c _ => c + 1) (0 : ℕ) ()
      = ((0 : ℕ), .disabledLog)
    ∧ postTransactions false (fun _ : Unit => true) (fun _ => [()]) id
        (fun s _ => s + 1) (0 : ℕ) ()
      = ((0 : ℕ), .disabledLog) :=
  broadcasts_inactive_noop false false (fun _ => true) (fun _ => ()) (fun c _ => c + 1) 0 ()
    (fun _ => true) (fun _ => [()]) id (fun s _ => s + 1) 0 () rfl

/-! ## Chain transaction sanitization -/

/-- A stored `trs` row with the columns the inbound/outbound transaction
queries select.  `TD` is the raw `transferData` buffer type, `PK` the
raw `senderPublicKey` buffer type. -/
structure TxnRow (TD PK : Type) where
  id : String
  type : Nat
  senderId : String
  senderPublicKey : PK
  timestamp : Int
  recipientId : Option String
  amount : String
  blockId : String
  transferData : Option TD
  signatures : Option (List Char)

/-- The object hashed by `_findMultisigMemberWalletAddress`: the row
without `signature`/`signSignature`/`signatures`, `senderPublicKey`
hex-encoded, `asset.data` set from `transferData` when present. -/
structure TxnToHash (TD : Type) where
  id : String
  type : Nat
  senderId : String
  senderPublicKey : String
  timestamp : Int
  recipientId : Option String
  amount : String
  blockId : String
  transferData : Option TD
  assetData : Option String

/-- Cryptographic and encoding collaborators consumed as a library:
`utf8` is `Buffer.toString('utf8')`, `hex` is `Buffer.toString('hex')`,
`hashTxn` is `hash(getTransactionBytes(t))`, `verifyData` and
`addressFromPublicKey` the lisk-cryptography operations. -/
structure SanitizeOps (TD PK H : Type) where
  utf8 : TD → String
  hex : PK → String
  hashTxn : TxnToHash TD → H
  verifyData : H → List Char → PK → Bool
  addressFromPublicKey : PK → String

/-- The `transactionToHash` construction in
`_findMultisigMemberWalletAddress`. -/
def buildTxnToHash {TD PK H : Type} (ops : SanitizeOps TD PK H) (t : TxnRow TD PK) :
    TxnToHash TD :=
  { id := t.id, type := t.type, senderId := t.senderId,
    senderPublicKey := ops.hex t.senderPublicKey, timestamp := t.timestamp,
    recipientId := t.recipientId, amount := t.amount, blockId := t.blockId,
    transferData := t.transferData,
    assetData := t.transferData.map ops.utf8 }

/-- Source `Chain._findMultisigMemberWalletAddress`: the address of the first
member public key verifying the signature against the transaction hash;
`none` models the source's `null`. -/
def findMultisigMemberWalletAddress {TD PK H : Type} (ops : SanitizeOps TD PK H)
    (t : TxnRow TD PK) (signature : List Char) (memberPublicKeyList : List PK) :
    Option String :=
  (memberPublicKeyList.find? (fun publicKey =>
      ops.verifyData (ops.hashTxn (buildTxnToHash ops t)) signature publicKey)).map
    ops.addressFromPublicKey

/-- One `{signerAddress, signature}` pair of a sanitized signature list. -/
structure SigEntry where
  signerAddress : Option String
  signature : List Char
  deriving DecidableEq

/-- The `signatures` field after sanitization: either the stored raw
value (non-type-0 rows or empty field) or the resolved pair list. -/
inductive SanitizedSignatures where
  | raw (s : Option (List Char))
  | resolved (entries : List SigEntry)
  deriving DecidableEq

/-- The sanitized transaction shape returned by the queries. -/
structure SanitizedTxn where
  id : String
  type : Nat
  senderAddress : String
  senderPublicKey : String
  timestamp : Int
  recipientId : Option String
  recipientAddress : Option String
  amount : String
  blockId : String
  message : Option String
  signatures : SanitizedSignatures
  deriving DecidableEq

/-- Source `Chain._sanitizeTransactions`, per row; `getMembers` is the
`mem_accounts2multisignatures` lookup `_getMultisigWalletMembers`. -/
def sanitizeTransaction {TD PK H : Type} (ops : SanitizeOps TD PK H)
    (getMembers : String → List PK) (t : TxnRow TD PK) : SanitizedTxn :=
  let message := t.transferData.map ops.utf8
  let recipientPair : Option String × Option String :=
    match t.recipientId with
    | some r => if r ≠ "" then (none, some r) else (some r, none)
    | none => (none, none)
  let signatures :=
    if t.type = 0 then
      match t.signatures with
      | some s =>
        if s.isEmpty then SanitizedSignatures.raw t.signatures
        else
          let memberPublicKeyList := getMembers t.senderId
          SanitizedSignatures.resolved ((splitOnComma s).map (fun signature =>
            { signerAddress := findMultisigMemberWalletAddress ops t signature memberPublicKeyList,
              signature := signature }))
      | none => SanitizedSignatures.raw none
    else SanitizedSignatures.raw t.signatures
  { id := t.id, type := t.type, senderAddress := t.senderId,
    senderPublicKey := ops.hex t.senderPublicKey, timestamp := t.timestamp,
    recipientId := recipientPair.1, recipientAddress := recipientPair.2,
    amount := t.amount, blockId := t.blockId, message := message,
    signatures := signatures }

/-- C3: for a type-0 row with a nonempty stored signatures field, the
sanitized `signatures` is the `{signerAddress, signature}` list where
each `signerAddress` is the address of the first member public key of
the sender's multisignature wallet verifying that signature against the
canonical transaction hash, `none` when no member verifies it; a
present `transferData` is returned as utf-8 text in `message`. -/
theorem sanitize_multisig_signatures {TD PK H : Type} (ops : SanitizeOps TD PK H)
    (getMembers : String → List PK) (t : TxnRow TD PK)
    (h0 : t.type = 0) (s : List Char) (hs : t.signatures = some s)
    (hne : s.isEmpty = false) :
    (sanitizeTransaction ops getMembers t).signatures
      = .resolved ((splitOnComma s).map (fun signature =>
          { signerAddress := ((getMembers t.senderId).find? (fun publicKey =>
                ops.verifyData (ops.hashTxn (buildTxnToHash ops t)) signature publicKey)).map
              ops.addressFromPublicKey,
            signature := signature }))
    ∧ (∀ signature, (∀ publicKey ∈ getMembers t.senderId,
          ops.verifyData (ops.hashTxn (buildTxnToHash ops t)) signature publicKey = false) →
        findMultisigMemberWalletAddress ops t signature (getMembers t.senderId) = none)
    ∧ (sanitizeTransaction ops getMembers t).message = t.transferData.map ops.utf8 := by
  refine ⟨?_, ?_, ?_⟩
  · simp [sanitizeTransaction, h0, hs, hne, findMultisigMemberWalletAddress]
  · intro signature hnone
    have hfind : (getMembers t.senderId).find? (fun publicKey =>
        ops.verifyData (ops.hashTxn (buildTxnToHash ops t)) signature publicKey) = none := by
      rw [List.find?_eq_none]
      intro publicKey hpk
      simp [hnone publicKey hpk]
    rw [findMultisigMemberWalletAddress, hfind]
    rfl
  · simp [sanitizeTransaction]

/-- Concrete collaborators for the C3 witness: public key 1 verifies
every signature, all others verify none. -/
def sanitizeOpsW : SanitizeOps Nat Nat Nat :=
  { utf8 := fun n => toString n, hex := fun n => toString n,
    hashTxn := fun _ => 0,
    verifyData := fun _ _ publicKey => publicKey == 1,
    addressFromPublicKey := fun publicKey => toString (publicKey + 100) }

/-- Concrete type-0 multisig row for the C3 witness. -/
def txnRowW : TxnRow Nat Nat :=
  { id := "t1", type := 0, senderId := "S", senderPublicKey := 5, timestamp := 3,
    recipientId := some "R", amount := "100", blockId := "B",
    transferData := some 7, signatures := some ['s', '1', Char.ofNat 44, 's', '2'] }

/-- C3 witness: two signatures, members {2, 1}; both resolve to the
address of member 1 and the transfer data appears as `message`. -/
theorem sanitize_multisig_signatures_witness :
    (sanitizeTransaction sanitizeOpsW (fun _ => [2, 1]) txnRowW).signatures
      = .resolved [⟨some "101", ['s', '1']⟩, ⟨some "101", ['s', '2']⟩]
    ∧ (sanitizeTransaction sanitizeOpsW (fun _ => [2, 1]) txnRowW).message = some "7" := by
  have h := sanitize_multisig_signatures sanitizeOpsW (fun _ => [2, 1]) txnRowW rfl
    (['s', '1', Char.ofNat 44, 's', '2']) rfl rfl
  refine ⟨?_, ?_⟩
  · rw [h.1]; rfl
  · rw [h.2.2]; rfl

/-! ## Chain.bootstrap rebuild path -/

/-- The chain options `bootstrap` consults for the rebuild path. -/
structure ChainOptions where
  rebuildUpToRound : Option Nat
  broadcastsActive : Bool
  syncingActive : Bool
  deriving DecidableEq

/-- JS truthiness of `loading.rebuildUpToRound` (numeric option: absent
and 0 are falsy). -/
def truthyRound : Option Nat → Bool
  | none => false
  | some n => n != 0

/-- The externally visible steps of `Chain.bootstrap`, in order. -/
inductive BootStep where
  | initModules (broadcastsActive syncingActive : Bool)
  | loadBlockChain (rebuildUpToRound : Option Nat)
  | emitCleanup
  | subscribeEvents
  | startLoader
  | startForging
  | subscribeNetworkEvents
  deriving DecidableEq

/-- Source `Chain.bootstrap` as its ordered step trace: the option mutation
precedes `_initModules`; on the rebuild path the method emits `cleanup`
right after `loadBlockChain` and returns before any subscription or
start call. -/
def bootstrapSteps (o : ChainOptions) : List BootStep :=
  let o2 := if truthyRound o.rebuildUpToRound then
      { o with broadcastsActive := false, syncingActive := false }
    else o
  [BootStep.initModules o2.broadcastsActive o2.syncingActive,
   BootStep.loadBlockChain o2.rebuildUpToRound]
  ++ (if truthyRound o2.rebuildUpToRound then [BootStep.emitCleanup]
      else [BootStep.subscribeEvents, BootStep.startLoader,
            BootStep.startForging, BootStep.subscribeNetworkEvents])

/-- C10: under a truthy `rebuildUpToRound`, bootstrap initializes the
modules with broadcasts and syncing forced inactive, loads the chain,
emits cleanup, and performs no event subscription, loader start, forging
start or network-event subscription. -/
theorem bootstrap_rebuild_trace (o : ChainOptions)
    (h : truthyRound o.rebuildUpToRound = true) :
    bootstrapSteps o
      = [BootStep.initModules false false,
         BootStep.loadBlockChain o.rebuildUpToRound,
         BootStep.emitCleanup]
    ∧ BootStep.subscribeEvents ∉ bootstrapSteps o
    ∧ BootStep.startLoader ∉ bootstrapSteps o
    ∧ BootStep.startForging ∉ bootstrapSteps o
    ∧ BootStep.subscribeNetworkEvents ∉ bootstrapSteps o := by
  have htrace : bootstrapSteps o
      = [BootStep.initModules false false,
         BootStep.loadBlockChain o.rebuildUpToRound,
         BootStep.emitCleanup] := by
    simp [bootstrapSteps, h]
  refine ⟨htrace, ?_, ?_, ?_, ?_⟩ <;> rw [htrace] <;> simp

/-- C10 witness: rebuild up to round 5 on a node with broadcasts and
syncing enabled in its configuration. -/
theorem bootstrap_rebuild_trace_witness :
    bootstrapSteps ⟨some 5, true, true⟩
      = [BootStep.initModules false false,
         BootStep.loadBlockChain (some 5),
         BootStep.emitCleanup] :=
  (bootstrap_rebuild_trace ⟨some 5, true, true⟩ rfl).1

end Leasehold
